import Mathlib

/-!
Verification of the `tracer` package (github.com/xh3b4sd/tracer) against its
specification.  The package augments Go error values with contextual key/value
pairs, a description and a call-site trace, preserving the original cause
through repeated `Mask` calls.

The embedding models Go pointer semantics explicitly: `*Error` values are
addresses into a `Heap`, since the package's equality operation (`Is`) and its
copy-on-first-wrap discipline are about instance identity, not structural
equality.  Foreign (non-`*Error`) error values are opaque identities carrying
their dynamic type name and message; Go interface equality on them is identity,
which the model renders by giving every distinct foreign error a distinct id.

Sources embedded below: `mask.go` (`Mask`, `mask`), `error.go` (`Error`,
`Copy`, `Error()`, `Is`, `MarshalJSON`, `Unwrap`, `cause`), `json.go` (`Json`)
and `stack.go` (`Stack`).
-/

namespace Tracer

/-- A Go `error` value: either a foreign (non-`*Error`) error, identified by an
allocation id together with its dynamic type name and message, or a pointer to
a `Tracer.Error` cell in the heap. -/
inductive GoErr where
  | foreign (id : Nat) (ty : String) (msg : String)
  | ptr (addr : Nat)
deriving DecidableEq

/-- Source: `type Context struct { Key string; Val string }` (README usage
`tracer.Context{Key: "resource", Val: "identifier"}`). -/
structure Context where
  Key : String
  Val : String
deriving DecidableEq

/-- Source (`error.go`):
`type Error struct { Context []Context; Description string; cause error; trace []string }`.
The unexported fields `cause` and `trace` cannot be set by application code, so
a statically declared marker always has `cause = none` and `trace = []`. -/
structure Error where
  Context : List Context
  Description : String
  cause : Option GoErr
  trace : List String
deriving DecidableEq

/-- The mutable store of `*Error` cells.  `size` is the number of allocated
cells; `cells` maps an address to the cell's current contents. -/
structure Heap where
  size : Nat
  cells : Nat → Error

def Heap.get (h : Heap) (a : Nat) : Error := h.cells a

def Heap.set (h : Heap) (a : Nat) (d : Error) : Heap :=
  ⟨h.size, fun j => if j = a then d else h.cells j⟩

def Heap.alloc (h : Heap) (d : Error) : Heap × Nat :=
  (⟨h.size + 1, fun j => if j = h.size then d else h.cells j⟩, h.size)

/-- Source (`error.go`): `func (e *Error) Copy() *Error` returns a new `Error`
whose `Context` and `trace` slices are freshly allocated
(`append([]Context{}, e.Context...)`, `append([]string{}, e.trace...)`) and
whose remaining fields are copied.  In the heap model a copy is the same field
data placed in a fresh cell, so `Copy` on the data itself is the identity;
the fresh backing storage is rendered by the fresh address `alloc` returns. -/
def Error.Copy (e : Error) : Error :=
  { Context := e.Context
    Description := e.Description
    cause := e.cause
    trace := e.trace }

/-- Source (`error.go`): `func (e *Error) Error() string` returns the error's
description or "ERROR".  (Lean cannot give a definition the same name as its
own type's namespace, hence `ErrorMsg` for the Go method `Error()`.) -/
def Error.ErrorMsg (e : Error) : String :=
  if e.Description ≠ "" then e.Description else "ERROR"

/-- Source (`error.go`): `func (e *Error) Unwrap() error { return e.cause }`. -/
def Error.Unwrap (e : Error) : Option GoErr := e.cause

/-- Source (`error.go`):
`func cause(err error) error`: returns `nil` for `nil`, the `cause` field for a
`*Error` whose cause is non-nil, and the argument itself otherwise. -/
def cause (h : Heap) (err : Option GoErr) : Option GoErr :=
  match err with
  | none => none
  | some x =>
    match x with
    | .ptr a =>
      match (h.get a).cause with
      | some c => some c
      | none => some x
    | .foreign .. => some x

/-- Source (`error.go`): `func (e *Error) Is(x error) bool
{ return cause(e) == cause(x) }`.  The receiver is the cell at address `a`;
`==` is Go interface equality, which on the model's error values is decidable
equality of `GoErr`. -/
def Is (h : Heap) (a : Nat) (x : Option GoErr) : Bool :=
  decide (cause h (some (.ptr a)) = cause h x)

/-- Trace entry produced by one mask call: source
`fmt.Sprintf("%s:%d", f, l)` with `f`, `l` from `runtime.Caller(2)`.  The
caller's file and line are inputs of the model. -/
def entry (f : String) (l : Nat) : String := f ++ ":" ++ toString l

/-- Source (`mask.go`): `func mask(e *Error, c ...Context) *Error`.
If the cell has no cause yet, it is copied, the copy's cause is set to the
original pointer, and the copy is allocated fresh; otherwise the same cell is
mutated in place.  In both cases the supplied context (if non-empty) is
appended and one trace entry is appended. -/
def mask (h : Heap) (a : Nat) (c : List Context) (f : String) (l : Nat) : Heap × Nat :=
  match (h.get a).cause with
  | none =>
    let n := { (h.get a).Copy with cause := some (.ptr a) }
    let n := { n with Context := if c = [] then n.Context else n.Context ++ c }
    let n := { n with trace := n.trace ++ [entry f l] }
    h.alloc n
  | some _ =>
    let n := h.get a
    let n := { n with Context := if c = [] then n.Context else n.Context ++ c }
    let n := { n with trace := n.trace ++ [entry f l] }
    (h.set a n, a)

/-- Source (`mask.go`): `func Mask(e error, c ...Context) error`.
`nil` passes through; a foreign error is adopted into a freshly allocated
wrapper `&Error{Context: c, Description: e.Error(), cause: e}` which is then
passed to `mask` together with `c` again; a `*Error` is passed to `mask`
directly. -/
def Mask (h : Heap) (e : Option GoErr) (c : List Context) (f : String) (l : Nat) :
    Heap × Option GoErr :=
  match e with
  | none => (h, none)
  | some (.ptr a) =>
    ((mask h a c f l).1, some (.ptr (mask h a c f l).2))
  | some (.foreign id ty msg) =>
    let w : Error :=
      { Context := c
        Description := msg
        cause := some (.foreign id ty msg)
        trace := [] }
    let p := h.alloc w
    ((mask p.1 p.2 c f l).1, some (.ptr (mask p.1 p.2 c f l).2))

/-- Arguments of one `Mask` call in a chain: the extra context and the caller's
source location captured by `runtime.Caller`. -/
structure MaskCall where
  ctx : List Context
  file : String
  line : Nat
deriving DecidableEq

def entryOf (m : MaskCall) : String := entry m.file m.line

/-- `N` successive `Mask` calls, each applied to the previous result. -/
def maskN (h : Heap) (e : Option GoErr) : List MaskCall → Heap × Option GoErr
  | [] => (h, e)
  | m :: rest =>
    maskN (Mask h e m.ctx m.file m.line).1 (Mask h e m.ctx m.file m.line).2 rest

/-- The trace already carried by an error value: a foreign error carries none,
a `*Error` carries its cell's trace. -/
def traceOf (h : Heap) : GoErr → List String
  | .foreign .. => []
  | .ptr a => (h.get a).trace

/-- Whether an error value's address (if any) is an allocated heap cell. -/
def addrOk (h : Heap) : GoErr → Bool
  | .foreign .. => true
  | .ptr a => a < h.size

/-- The reflexive-transitive `Unwrap` chain: `Reaches h x z` holds when
following `Unwrap` from `x` (in heap `h`) reaches `z` in zero or more steps. -/
inductive Reaches (h : Heap) : GoErr → GoErr → Prop
  | refl (x : GoErr) : Reaches h x x
  | step (a : Nat) (y z : GoErr) (hu : (h.get a).Unwrap = some y)
      (hr : Reaches h y z) : Reaches h (.ptr a) z

/-- Comparison definition for claim C2, written from the spec's words: the
resolved cause of `x` is `x.cause` if `x` is an ErrorValue with a non-absent
cause, and otherwise `x` itself (covering arbitrary errors and Fresh
ErrorValues without a cause). -/
def resolveCause (h : Heap) (x : Option GoErr) : Option GoErr :=
  match x with
  | some (.ptr a) =>
    match (h.get a).cause with
    | some c => some c
    | none => some (.ptr a)
  | other => other

/-! ### JSON rendering

The source delegates to Go's `encoding/json`.  The model embeds the documented
behaviour of `json.Marshal` on the concrete struct types involved: fields are
emitted in declaration order, `omitempty` drops a field whose value is the
empty string or an empty slice, and strings are quoted with the backslash
escapes relevant to this code base. -/

/-- JSON escaping of one character (`encoding/json` string encoding,
restricted to the escapes this code base can produce). -/
def escChar (ch : Char) : String :=
  if ch = '\\' then "\\\\"
  else if ch = '"' then "\\\""
  else if ch = '\n' then "\\n"
  else if ch = '\t' then "\\t"
  else if ch = '\r' then "\\r"
  else String.singleton ch

/-- A JSON string literal for `s`. -/
def jsonString (s : String) : String :=
  "\"" ++ String.join (s.data.map escChar) ++ "\""

/-- Modelled from the spec: the JSON object for one `Context` entry.  The
`Context` struct's own declaration (its JSON tags) is not under `src/`; the
spec's section 6 gives the rendered form
`{ "key": "<string>", "value": "<string>" }`. -/
def marshalContext (c : Context) : String :=
  "\x7b\"key\":" ++ jsonString c.Key ++ ",\"value\":" ++ jsonString c.Val ++ "\x7d"

/-- A JSON array whose elements are rendered by `f`. -/
def marshalList (f : Context → String) (xs : List Context) : String :=
  "[" ++ String.intercalate "," (xs.map f) ++ "]"

/-- A JSON array of strings. -/
def marshalStrings (xs : List String) : String :=
  "[" ++ String.intercalate "," (xs.map jsonString) ++ "]"

/-- Source (`error.go`, `MarshalJSON`): the anonymous struct marshalled for a
non-nil `*Error`, as its ordered `(key, rendered value)` pairs.  The struct is
`{ Context []Context "context,omitempty"; Description string
"description,omitempty"; Trace []string "trace,omitempty" }` filled with
`e.Context`, `e.Error()` and `e.trace`; `omitempty` drops empty
slices/strings. -/
def marshalFields (e : Error) : List (String × String) :=
  (if e.Context = [] then [] else [("context", marshalList marshalContext e.Context)]) ++
  (if e.ErrorMsg = "" then [] else [("description", jsonString e.ErrorMsg)]) ++
  (if e.trace = [] then [] else [("trace", marshalStrings e.trace)])

/-- Source (`error.go`): `func (e *Error) MarshalJSON() ([]byte, error)` for a
non-nil receiver: the JSON object assembled from `marshalFields`. -/
def MarshalJSON (e : Error) : String :=
  "\x7b" ++
    String.intercalate "," ((marshalFields e).map (fun kv => jsonString kv.1 ++ ":" ++ kv.2)) ++
    "\x7d"

/-- Source (`json.go`): `func Json(err error) string` returns "\x7b\x7d" for
`nil`, and otherwise marshals the `*Error` (a foreign error is first put into
`&Error{Context: []Context{{Key: "type", Val: fmt.Sprintf("%T", err)}},
Description: err.Error()}`). -/
def Json (h : Heap) : Option GoErr → String
  | none => "\x7b\x7d"
  | some (.ptr a) => MarshalJSON (h.get a)
  | some (.foreign _ ty msg) =>
    MarshalJSON
      { Context := [{ Key := "type", Val := ty }]
        Description := msg
        cause := none
        trace := [] }

/-- Source (`stack.go`): `func Stack(err error) string` returns "null" for
`nil`, "[]" for a foreign error, and otherwise `json.Marshal` of the error's
trace slice.  (`json.Marshal` of a nil slice yields "null"; in this code base
an empty trace slice is always nil, never a non-nil empty slice.) -/
def Stack (h : Heap) : Option GoErr → String
  | none => "null"
  | some (.foreign ..) => "[]"
  | some (.ptr a) =>
    if (h.get a).trace = [] then "null" else marshalStrings (h.get a).trace

/-! ### Heap lemmas -/

theorem Heap.get_set_self (h : Heap) (a : Nat) (d : Error) : (h.set a d).get a = d := by
  simp [Heap.get, Heap.set]

theorem Heap.get_set_ne (h : Heap) (a j : Nat) (d : Error) (hj : j ≠ a) :
    (h.set a d).get j = h.get j := by
  simp [Heap.get, Heap.set, hj]

theorem Heap.size_set (h : Heap) (a : Nat) (d : Error) : (h.set a d).size = h.size := rfl

theorem Heap.alloc_snd (h : Heap) (d : Error) : (h.alloc d).2 = h.size := rfl

theorem Heap.get_alloc_self (h : Heap) (d : Error) : (h.alloc d).1.get h.size = d := by
  simp [Heap.get, Heap.alloc]

theorem Heap.get_alloc_ne (h : Heap) (d : Error) (j : Nat) (hj : j ≠ h.size) :
    (h.alloc d).1.get j = h.get j := by
  simp [Heap.get, Heap.alloc, hj]

theorem Heap.size_alloc (h : Heap) (d : Error) : (h.alloc d).1.size = h.size + 1 := rfl

/-- The conditional context append of `mask` (`if len(c) != 0`) is a plain
append, since appending the empty list is the identity. -/
theorem ctx_if_append (t c : List Context) : (if c = [] then t else t ++ c) = t ++ c := by
  split <;> simp_all

/-! ### Single-step `Mask` lemmas, one per branch of the source -/

/-- A `Mask` call on an already-wrapped `*Error` mutates the cell in place:
same address, context and one trace entry appended, everything else (the
cause included) untouched. -/
theorem Mask_wrapped (h : Heap) (a : Nat) (c : List Context) (f : String) (l : Nat)
    (c0 : GoErr) (hc : (h.get a).cause = some c0) :
    Mask h (some (.ptr a)) c f l =
      (h.set a
        (Error.mk ((h.get a).Context ++ c) (h.get a).Description (h.get a).cause
          ((h.get a).trace ++ [entry f l])),
        some (.ptr a)) := by
  simp [Mask, mask, hc, ctx_if_append]

/-- A `Mask` call on a Fresh `*Error` (no cause) allocates a copy at the fresh
address `h.size`, with the cause set to the original pointer, the context
appended and one trace entry appended; the original cell is not written. -/
theorem Mask_fresh (h : Heap) (a : Nat) (c : List Context) (f : String) (l : Nat)
    (hc : (h.get a).cause = none) :
    Mask h (some (.ptr a)) c f l =
      ((h.alloc
        (Error.mk ((h.get a).Context ++ c) (h.get a).Description (some (.ptr a))
          ((h.get a).trace ++ [entry f l]))).1,
        some (.ptr h.size)) := by
  simp [Mask, mask, hc, ctx_if_append, Error.Copy, Heap.alloc_snd]

/-- A `Mask` call on a foreign error allocates the wrapper (which carries the
supplied context already) and then mutates it in place, appending the supplied
context a second time and one trace entry. -/
theorem Mask_foreign (h : Heap) (id : Nat) (ty msg : String) (c : List Context)
    (f : String) (l : Nat) :
    Mask h (some (.foreign id ty msg)) c f l =
      (((h.alloc (Error.mk c msg (some (.foreign id ty msg)) [])).1).set h.size
          (Error.mk (c ++ c) msg (some (.foreign id ty msg)) [entry f l]),
        some (.ptr h.size)) := by
  have hget : ((h.alloc (Error.mk c msg (some (.foreign id ty msg)) [])).1).get h.size =
      Error.mk c msg (some (.foreign id ty msg)) [] :=
    Heap.get_alloc_self h _
  simp [Mask, mask, Heap.alloc_snd, hget, ctx_if_append]

theorem maskN_nil (h : Heap) (e : Option GoErr) : maskN h e [] = (h, e) := rfl

theorem maskN_cons (h : Heap) (e : Option GoErr) (m : MaskCall) (rest : List MaskCall) :
    maskN h e (m :: rest) =
      maskN (Mask h e m.ctx m.file m.line).1 (Mask h e m.ctx m.file m.line).2 rest := rfl

/-- A trace entry is never the empty string: it always contains the `":"`
separator of its `"file:line"` format. -/
theorem entry_ne_empty (f : String) (l : Nat) : entry f l ≠ "" := by
  intro hcon
  have hlen := congrArg String.length hcon
  rw [entry] at hlen
  rw [String.length_append, String.length_append] at hlen
  have hc1 : (":" : String).length = 1 := rfl
  have h0 : ("" : String).length = 0 := rfl
  rw [hc1, h0] at hlen
  omega

/-- Stability of the Wrapped state under any chain of `Mask` calls: the same
address is returned, the heap size is constant (no allocation), the cause is
preserved, the trace grows by exactly the call-site entries in call order, and
every other cell is untouched. -/
theorem maskN_keeps_wrapped (args : List MaskCall) :
    ∀ (h : Heap) (a : Nat) (c0 : GoErr), (h.get a).cause = some c0 →
      (maskN h (some (.ptr a)) args).2 = some (.ptr a) ∧
      ((maskN h (some (.ptr a)) args).1).size = h.size ∧
      ((maskN h (some (.ptr a)) args).1.get a).cause = some c0 ∧
      ((maskN h (some (.ptr a)) args).1.get a).trace =
        (h.get a).trace ++ args.map entryOf ∧
      ∀ j, j ≠ a → (maskN h (some (.ptr a)) args).1.get j = h.get j := by
  induction args with
  | nil =>
    intro h a c0 hc
    exact ⟨rfl, rfl, hc, by simp [maskN], fun j hj => rfl⟩
  | cons m rest ih =>
    intro h a c0 hc
    rw [maskN_cons, Mask_wrapped h a m.ctx m.file m.line c0 hc]
    dsimp only
    have hget : (h.set a
        (Error.mk ((h.get a).Context ++ m.ctx) (h.get a).Description (h.get a).cause
          ((h.get a).trace ++ [entry m.file m.line]))).get a =
        Error.mk ((h.get a).Context ++ m.ctx) (h.get a).Description (h.get a).cause
          ((h.get a).trace ++ [entry m.file m.line]) :=
      Heap.get_set_self h a _
    have hc1 : ((h.set a
        (Error.mk ((h.get a).Context ++ m.ctx) (h.get a).Description (h.get a).cause
          ((h.get a).trace ++ [entry m.file m.line]))).get a).cause = some c0 := by
      rw [hget]; exact hc
    obtain ⟨hres, hsz, hcz, htr, hoth⟩ := ih _ a c0 hc1
    refine ⟨hres, ?_, hcz, ?_, ?_⟩
    · rw [hsz, Heap.size_set]
    · rw [htr, hget]
      simp [entryOf, List.append_assoc]
    · intro j hj
      rw [hoth j hj, Heap.get_set_ne h a j _ hj]

/-- The source's `cause` agrees with the spec's `resolveCause` on every
error value. -/
theorem cause_eq_resolveCause (h : Heap) (x : Option GoErr) :
    cause h x = resolveCause h x := by
  cases x with
  | none => rfl
  | some g =>
    cases g with
    | foreign id ty msg => rfl
    | ptr a => cases hc : (h.get a).cause <;> simp [cause, resolveCause, hc]

/-! ### Concrete sample values used by the witness theorems -/

def sampleForeign : GoErr := .foreign 0 "*errors.errorString" "boom"

def emptyHeap : Heap := ⟨0, fun _ => Error.mk [] "" none []⟩

/-- Two statically declared markers with identical fields and no cause. -/
def markerHeap : Heap := ⟨2, fun _ => Error.mk [] "not found" none []⟩

/-- One already-wrapped cell. -/
def wrappedHeap : Heap := ⟨1, fun _ => Error.mk [] "d" (some sampleForeign) ["a.go:1"]⟩

/-! ### Claim theorems -/

/-- C2: `Is(a, b)` is true exactly when `resolveCause(a)` equals
`resolveCause(b)`, where `resolveCause(x)` returns `x`'s cause if `x` is an
ErrorValue with a non-absent cause and otherwise `x` itself. -/
theorem C2_is_resolved_cause_equality (h : Heap) (a : Nat) (x : Option GoErr) :
    Is h a x = true ↔ resolveCause h (some (.ptr a)) = resolveCause h x := by
  rw [Is, decide_eq_true_iff, cause_eq_resolveCause, cause_eq_resolveCause]

/-- C4: a `Mask` call on an ErrorValue already carrying a non-absent cause
returns the very same instance (same address, no allocation: the heap size is
unchanged) with its cause unchanged, and across any chain of further `Mask`
calls the cause is never overwritten. -/
theorem C4_wrapped_self_transition (h : Heap) (a : Nat) (c0 : GoErr)
    (cs : List Context) (f : String) (l : Nat) (args : List MaskCall)
    (hc : (h.get a).cause = some c0) :
    (Mask h (some (.ptr a)) cs f l).2 = some (.ptr a) ∧
    ((Mask h (some (.ptr a)) cs f l).1).size = h.size ∧
    (((Mask h (some (.ptr a)) cs f l).1).get a).cause = some c0 ∧
    (maskN h (some (.ptr a)) args).2 = some (.ptr a) ∧
    (((maskN h (some (.ptr a)) args).1).get a).cause = some c0 := by
  obtain ⟨hres, _, hcz, _, _⟩ := maskN_keeps_wrapped args h a c0 hc
  rw [Mask_wrapped h a cs f l c0 hc]
  dsimp only
  rw [Heap.get_set_self]
  exact ⟨rfl, rfl, hc, hres, hcz⟩

theorem C4_witness :
    (wrappedHeap.get 0).cause = some sampleForeign ∧
    ((Mask wrappedHeap (some (.ptr 0)) [] "f.go" 2).2 = some (.ptr 0) ∧
      ((Mask wrappedHeap (some (.ptr 0)) [] "f.go" 2).1).size = wrappedHeap.size ∧
      (((Mask wrappedHeap (some (.ptr 0)) [] "f.go" 2).1).get 0).cause = some sampleForeign ∧
      (maskN wrappedHeap (some (.ptr 0)) [⟨[], "g.go", 3⟩]).2 = some (.ptr 0) ∧
      (((maskN wrappedHeap (some (.ptr 0)) [⟨[], "g.go", 3⟩]).1).get 0).cause =
        some sampleForeign) :=
  ⟨rfl, C4_wrapped_self_transition wrappedHeap 0 sampleForeign [] "f.go" 2
    [⟨[], "g.go", 3⟩] rfl⟩

/-- C6: two independently constructed ErrorValues with identical
description/kind fields and no cause are not `Is`-equal to each other, while
each is `Is`-equal to itself: resolved-cause equality is instance identity,
not structural field equality. -/
theorem C6_distinct_markers (h : Heap) (a b : Nat) (hab : a ≠ b)
    (hca : (h.get a).cause = none) (hcb : (h.get b).cause = none)
    (hd : (h.get a).Description = (h.get b).Description)
    (hctx : (h.get a).Context = (h.get b).Context) :
    Is h a (some (.ptr b)) = false ∧ Is h a (some (.ptr a)) = true := by
  constructor
  · simp only [Is, cause, hca, hcb]
    simp [hab]
  · simp [Is, cause, hca]

theorem C6_witness :
    (0 : Nat) ≠ 1 ∧
    (markerHeap.get 0).cause = none ∧
    (markerHeap.get 1).cause = none ∧
    (markerHeap.get 0).Description = (markerHeap.get 1).Description ∧
    (markerHeap.get 0).Context = (markerHeap.get 1).Context ∧
    (Is markerHeap 0 (some (.ptr 1)) = false ∧ Is markerHeap 0 (some (.ptr 0)) = true) :=
  ⟨by decide, rfl, rfl, rfl, rfl,
    C6_distinct_markers markerHeap 0 1 (by decide) rfl rfl rfl rfl⟩

/-- C7: `Mask` on a non-nil error that is not an ErrorValue returns an
ErrorValue whose description equals the input error's message and whose cause
is the input error itself. -/
theorem C7_foreign_error_adopted (h : Heap) (id : Nat) (ty msg : String)
    (c : List Context) (f : String) (l : Nat) :
    (Mask h (some (.foreign id ty msg)) c f l).2 = some (.ptr h.size) ∧
    (((Mask h (some (.foreign id ty msg)) c f l).1).get h.size).Description = msg ∧
    (((Mask h (some (.foreign id ty msg)) c f l).1).get h.size).cause =
      some (.foreign id ty msg) := by
  rw [Mask_foreign]
  dsimp only
  rw [Heap.get_set_self]
  exact ⟨rfl, rfl, rfl⟩

/-- C8: `Mask(nil)` returns `nil` with no trace recorded and no other effect
(the heap is unchanged); `Json(nil)` is the two-character object string;
`Stack(nil)` is "null". -/
theorem C8_nil_identity (h : Heap) (c : List Context) (f : String) (l : Nat) :
    Mask h none c f l = (h, none) ∧
    Json h none = "\x7b\x7d" ∧
    Stack h none = "null" :=
  ⟨rfl, rfl, rfl⟩

/-- C9 counterexample: for the ErrorValue with empty description the marshaled
JSON object does contain a "description" key — its value is the sentinel
"ERROR" — so the claim that the key is omitted for empty descriptions is
false on the code. -/
theorem C9_counterexample :
    (marshalFields (Error.mk [] "" none [])).map Prod.fst = ["description"] ∧
    MarshalJSON (Error.mk [] "" none []) = "\x7b\"description\":\"ERROR\"\x7d" := by
  constructor <;> rfl

/-- C9 amended: the JSON rendering never omits the description field — for
every ErrorValue the marshaled object contains a "description" key (between
the optional "context" and "trace" keys), because the marshalled value is the
`Error()` string, which is never empty: `Error()` returns the description if
non-empty and otherwise the fixed sentinel "ERROR", and never fails. -/
theorem C9_description_never_omitted (e : Error) :
    (marshalFields e).map Prod.fst =
      (if e.Context = [] then [] else ["context"]) ++ ["description"] ++
        (if e.trace = [] then [] else ["trace"]) ∧
    e.ErrorMsg ≠ "" ∧
    e.ErrorMsg = (if e.Description = "" then "ERROR" else e.Description) := by
  have hmsg : e.ErrorMsg ≠ "" := by
    rw [Error.ErrorMsg]
    split
    · assumption
    · decide
  refine ⟨?_, hmsg, ?_⟩
  · by_cases h1 : e.Context = [] <;> by_cases h2 : e.trace = [] <;>
      simp [marshalFields, hmsg, h1, h2]
  · rw [Error.ErrorMsg]
    by_cases hd : e.Description = "" <;> simp [hd]

/-- C10: `Mask` on a foreign error with a non-empty context list `c` produces
an ErrorValue whose context is `c ++ c`: each supplied pair appears twice,
once from the wrapper's construction and once from the shared masking step. -/
theorem C10_foreign_context_duplicated (h : Heap) (id : Nat) (ty msg : String)
    (c : List Context) (f : String) (l : Nat) (hc : c ≠ []) :
    (Mask h (some (.foreign id ty msg)) c f l).2 = some (.ptr h.size) ∧
    (((Mask h (some (.foreign id ty msg)) c f l).1).get h.size).Context = c ++ c := by
  rw [Mask_foreign]
  dsimp only
  rw [Heap.get_set_self]
  exact ⟨rfl, rfl⟩

theorem C10_witness :
    ([Context.mk "k" "v"] : List Context) ≠ [] ∧
    ((Mask emptyHeap (some (.foreign 0 "t" "m")) [Context.mk "k" "v"] "f.go" 1).2 =
        some (.ptr emptyHeap.size) ∧
      (((Mask emptyHeap (some (.foreign 0 "t" "m")) [Context.mk "k" "v"] "f.go" 1).1).get
          emptyHeap.size).Context =
        [Context.mk "k" "v", Context.mk "k" "v"]) :=
  ⟨by decide,
    C10_foreign_context_duplicated emptyHeap 0 "t" "m" [Context.mk "k" "v"] "f.go" 1
      (by decide)⟩

/-- Any single `Mask` call on a non-nil error yields a Wrapped `*Error`: some
address whose cell carries a cause and whose trace is the input's trace with
exactly one new entry appended. -/
theorem Mask_step_exists (h : Heap) (x : GoErr) (c : List Context) (f : String) (l : Nat) :
    ∃ b c0, (Mask h (some x) c f l).2 = some (.ptr b) ∧
      (((Mask h (some x) c f l).1).get b).cause = some c0 ∧
      (((Mask h (some x) c f l).1).get b).trace = traceOf h x ++ [entry f l] := by
  cases x with
  | foreign id ty msg =>
    refine ⟨h.size, .foreign id ty msg, ?_⟩
    rw [Mask_foreign]
    dsimp only
    rw [Heap.get_set_self]
    exact ⟨rfl, rfl, rfl⟩
  | ptr a =>
    cases hca : (h.get a).cause with
    | none =>
      refine ⟨h.size, .ptr a, ?_⟩
      rw [Mask_fresh h a c f l hca]
      dsimp only
      rw [Heap.get_alloc_self]
      exact ⟨rfl, rfl, rfl⟩
    | some c0 =>
      refine ⟨a, c0, ?_⟩
      rw [Mask_wrapped h a c f l c0 hca]
      dsimp only
      rw [Heap.get_set_self]
      exact ⟨rfl, hca, rfl⟩

/-- C1: for every non-nil error `e` and every sequence of N ≥ 1 successive
`Mask` calls starting from `e`, the final result satisfies `Is(final, e)`,
and following `Unwrap` from the final result reaches `e`. -/
theorem C1_cause_preserved (h : Heap) (e : GoErr) (args : List MaskCall)
    (hargs : args ≠ []) (hok : addrOk h e = true) :
    ∃ b, (maskN h (some e) args).2 = some (.ptr b) ∧
      Is (maskN h (some e) args).1 b (some e) = true ∧
      Reaches (maskN h (some e) args).1 (.ptr b) e := by
  obtain ⟨m, rest, rfl⟩ : ∃ m rest, args = m :: rest := by
    cases args with
    | nil => exact absurd rfl hargs
    | cons m rest => exact ⟨m, rest, rfl⟩
  rw [maskN_cons]
  cases e with
  | foreign id ty msg =>
    rw [Mask_foreign]
    dsimp only
    have hc1 : ((((h.alloc (Error.mk m.ctx msg (some (.foreign id ty msg)) [])).1).set h.size
        (Error.mk (m.ctx ++ m.ctx) msg (some (.foreign id ty msg))
          [entry m.file m.line])).get h.size).cause = some (.foreign id ty msg) := by
      rw [Heap.get_set_self]
    obtain ⟨hres, _, hcz, _, _⟩ := maskN_keeps_wrapped rest _ h.size _ hc1
    refine ⟨h.size, hres, ?_, ?_⟩
    · simp [Is, cause, hcz]
    · exact Reaches.step h.size _ _ hcz (Reaches.refl _)
  | ptr a =>
    have hasz : a < h.size := by simpa [addrOk] using hok
    have hane : a ≠ h.size := Nat.ne_of_lt hasz
    cases hca : (h.get a).cause with
    | none =>
      rw [Mask_fresh h a m.ctx m.file m.line hca]
      dsimp only
      have hc1 : (((h.alloc
          (Error.mk ((h.get a).Context ++ m.ctx) (h.get a).Description (some (.ptr a))
            ((h.get a).trace ++ [entry m.file m.line]))).1).get h.size).cause =
          some (.ptr a) := by
        rw [Heap.get_alloc_self]
      obtain ⟨hres, _, hcz, _, hoth⟩ := maskN_keeps_wrapped rest _ h.size _ hc1
      refine ⟨h.size, hres, ?_, ?_⟩
      · have ha2 : ((maskN ((h.alloc
            (Error.mk ((h.get a).Context ++ m.ctx) (h.get a).Description (some (.ptr a))
              ((h.get a).trace ++ [entry m.file m.line]))).1) (some (.ptr h.size))
            rest).1).get a = h.get a := by
          rw [hoth a hane, Heap.get_alloc_ne h _ a hane]
        simp [Is, cause, hcz, ha2, hca]
      · exact Reaches.step h.size _ _ hcz (Reaches.refl _)
    | some c0 =>
      rw [Mask_wrapped h a m.ctx m.file m.line c0 hca]
      dsimp only
      have hc1 : ((h.set a
          (Error.mk ((h.get a).Context ++ m.ctx) (h.get a).Description (h.get a).cause
            ((h.get a).trace ++ [entry m.file m.line]))).get a).cause = some c0 := by
        rw [Heap.get_set_self]
        exact hca
      obtain ⟨hres, _, hcz, _, _⟩ := maskN_keeps_wrapped rest _ a _ hc1
      refine ⟨a, hres, ?_, Reaches.refl _⟩
      simp [Is, cause, hcz]

theorem C1_witness :
    ([MaskCall.mk [] "w.go" 9] : List MaskCall) ≠ [] ∧
    addrOk emptyHeap sampleForeign = true ∧
    ∃ b, (maskN emptyHeap (some sampleForeign) [MaskCall.mk [] "w.go" 9]).2 =
        some (.ptr b) ∧
      Is (maskN emptyHeap (some sampleForeign) [MaskCall.mk [] "w.go" 9]).1 b
        (some sampleForeign) = true ∧
      Reaches (maskN emptyHeap (some sampleForeign) [MaskCall.mk [] "w.go" 9]).1
        (.ptr b) sampleForeign :=
  ⟨by decide, rfl,
    C1_cause_preserved emptyHeap sampleForeign [MaskCall.mk [] "w.go" 9] (by decide) rfl⟩

/-- C3: masking a Fresh ErrorValue `k` (no cause) leaves `k`'s cell — its
trace and context included — exactly as before, returns a distinct instance
(the fresh address, different from `k`) whose cause is `k` itself, and no
later chain of `Mask` calls on the result can mutate `k`'s cell. -/
theorem C3_fresh_marker_immutable (h : Heap) (k : Nat) (c : List Context)
    (f : String) (l : Nat) (hk : k < h.size) (hc : (h.get k).cause = none) :
    (Mask h (some (.ptr k)) c f l).2 = some (.ptr h.size) ∧
    h.size ≠ k ∧
    (((Mask h (some (.ptr k)) c f l).1).get h.size).cause = some (.ptr k) ∧
    ((Mask h (some (.ptr k)) c f l).1).get k = h.get k ∧
    ∀ args : List MaskCall,
      ((maskN (Mask h (some (.ptr k)) c f l).1 (Mask h (some (.ptr k)) c f l).2
        args).1).get k = h.get k := by
  have hne : k ≠ h.size := Nat.ne_of_lt hk
  rw [Mask_fresh h k c f l hc]
  dsimp only
  have hget : (((h.alloc (Error.mk ((h.get k).Context ++ c) (h.get k).Description
      (some (.ptr k)) ((h.get k).trace ++ [entry f l]))).1).get h.size) =
      Error.mk ((h.get k).Context ++ c) (h.get k).Description (some (.ptr k))
        ((h.get k).trace ++ [entry f l]) :=
    Heap.get_alloc_self h _
  refine ⟨rfl, hne.symm, ?_, ?_, ?_⟩
  · rw [hget]
  · exact Heap.get_alloc_ne h _ k hne
  · intro args
    have hc1 : (((h.alloc (Error.mk ((h.get k).Context ++ c) (h.get k).Description
        (some (.ptr k)) ((h.get k).trace ++ [entry f l]))).1).get h.size).cause =
        some (.ptr k) := by
      rw [hget]
    obtain ⟨_, _, _, _, hoth⟩ := maskN_keeps_wrapped args _ h.size _ hc1
    rw [hoth k hne, Heap.get_alloc_ne h _ k hne]

theorem C3_witness :
    (0 : Nat) < markerHeap.size ∧
    (markerHeap.get 0).cause = none ∧
    ((Mask markerHeap (some (.ptr 0)) [] "b.go" 4).2 = some (.ptr markerHeap.size) ∧
      markerHeap.size ≠ 0 ∧
      (((Mask markerHeap (some (.ptr 0)) [] "b.go" 4).1).get markerHeap.size).cause =
        some (.ptr 0) ∧
      ((Mask markerHeap (some (.ptr 0)) [] "b.go" 4).1).get 0 = markerHeap.get 0 ∧
      ∀ args : List MaskCall,
        ((maskN (Mask markerHeap (some (.ptr 0)) [] "b.go" 4).1
          (Mask markerHeap (some (.ptr 0)) [] "b.go" 4).2 args).1).get 0 =
          markerHeap.get 0) :=
  ⟨by decide, rfl, C3_fresh_marker_immutable markerHeap 0 [] "b.go" 4 (by decide) rfl⟩

/-- C5: every `Mask` invocation on a non-nil error appends exactly one trace
entry (whatever the input's state and even with no extra context), so a chain
of N successive `Mask` calls starting from an error carrying no trace ends
with exactly N entries, each a non-empty "file:line" string, in call order. -/
theorem C5_trace_grows_one_per_call :
    (∀ (h : Heap) (x : GoErr) (c : List Context) (f : String) (l : Nat),
      ∃ b, (Mask h (some x) c f l).2 = some (.ptr b) ∧
        (((Mask h (some x) c f l).1).get b).trace = traceOf h x ++ [entry f l]) ∧
    (∀ (h : Heap) (x : GoErr) (args : List MaskCall), args ≠ [] → traceOf h x = [] →
      ∃ b, (maskN h (some x) args).2 = some (.ptr b) ∧
        (((maskN h (some x) args).1).get b).trace = args.map entryOf ∧
        (((maskN h (some x) args).1).get b).trace.length = args.length ∧
        ∀ s ∈ args.map entryOf, s ≠ "") := by
  constructor
  · intro h x c f l
    obtain ⟨b, c0, hres, _, htr⟩ := Mask_step_exists h x c f l
    exact ⟨b, hres, htr⟩
  · intro h x args hargs htr0
    obtain ⟨m, rest, rfl⟩ : ∃ m rest, args = m :: rest := by
      cases args with
      | nil => exact absurd rfl hargs
      | cons m rest => exact ⟨m, rest, rfl⟩
    rw [maskN_cons]
    obtain ⟨b, c0, hres1, hc1, htr1⟩ := Mask_step_exists h x m.ctx m.file m.line
    rw [hres1]
    obtain ⟨hres, _, _, htr, _⟩ :=
      maskN_keeps_wrapped rest (Mask h (some x) m.ctx m.file m.line).1 b c0 hc1
    refine ⟨b, hres, ?_, ?_, ?_⟩
    · rw [htr, htr1, htr0]
      simp [entryOf]
    · rw [htr, htr1, htr0]
      simp
    · intro s hs
      obtain ⟨m', _, rfl⟩ := List.mem_map.mp hs
      simpa [entryOf] using entry_ne_empty m'.file m'.line

theorem C5_witness :
    ([MaskCall.mk [] "a.go" 1, MaskCall.mk [] "a.go" 2] : List MaskCall) ≠ [] ∧
    traceOf emptyHeap sampleForeign = [] ∧
    ∃ b, (maskN emptyHeap (some sampleForeign)
        [MaskCall.mk [] "a.go" 1, MaskCall.mk [] "a.go" 2]).2 = some (.ptr b) ∧
      (((maskN emptyHeap (some sampleForeign)
        [MaskCall.mk [] "a.go" 1, MaskCall.mk [] "a.go" 2]).1).get b).trace =
        [MaskCall.mk [] "a.go" 1, MaskCall.mk [] "a.go" 2].map entryOf ∧
      (((maskN emptyHeap (some sampleForeign)
        [MaskCall.mk [] "a.go" 1, MaskCall.mk [] "a.go" 2]).1).get b).trace.length =
        ([MaskCall.mk [] "a.go" 1, MaskCall.mk [] "a.go" 2] : List MaskCall).length ∧
      ∀ s ∈ ([MaskCall.mk [] "a.go" 1, MaskCall.mk [] "a.go" 2] : List MaskCall).map entryOf,
        s ≠ "" :=
  ⟨by decide, rfl,
    C5_trace_grows_one_per_call.2 emptyHeap sampleForeign
      [MaskCall.mk [] "a.go" 1, MaskCall.mk [] "a.go" 2] (by decide) rfl⟩

end Tracer
